import Mathlib

/-!
# Verification of the USF-2 planning/aggregation core

Shallow embedding of `src/usf_executor.py`, `src/usf.py` and `src/usf_runner.py`
(repository `veil-protocol/USF-2`) together with proofs of the specification
claims about it.

Modelling conventions:
* Python floats are modelled as exact rationals (`ℚ`).  All confidence
  arithmetic in the source uses short decimal literals and small sums, where
  IEEE double ordering and the rational ordering agree.
* Python strings are modelled as Lean `String`/`List Char`; the `str.lower`
  and the regular-expression scans used by the source are modelled over the
  ASCII subset, which covers every literal the source matches against.
* `json.loads` is modelled by an executable JSON reader producing the `Json`
  inductive below (objects keep duplicate keys, lookup takes the last
  occurrence, as CPython dict construction does).  The extensions Python's
  reader accepts beyond standard JSON (`NaN`, `Infinity`) are not modelled;
  no claim depends on them.
* Python exceptions that escape a function are modelled with `Except PyErr`.
* Free-text prompt bodies are not reproduced: no claim depends on the prompt
  text of a work item, only on the number, descriptions, agent classes and
  flags of the generated items.
-/

namespace USF2

/-- Exceptions of the Python runtime that the embedded code can raise. -/
inductive PyErr where
  | valueError
  | typeError
  | attributeError
deriving DecidableEq, Repr

/-! ## Python string helpers -/

/-- The characters matched by the regex class `\s` (ASCII part):
space, tab, newline, carriage return, vertical tab, form feed. -/
def pyIsSpace (c : Char) : Bool :=
  c = ' ' || c = '\t' || c = '\n' || c = '\r' || c = '\x0b' || c = '\x0c'

/-- `str.lower()` restricted to ASCII. -/
def pyLower (s : String) : String :=
  ⟨s.data.map Char.toLower⟩

/-- `needle in hay` on character lists (Python substring containment). -/
def hasSubstr : List Char → List Char → Bool
  | [], needle => needle.isEmpty
  | h :: t, needle => needle.isPrefixOf (h :: t) || hasSubstr t needle

/-- `needle in hay` on strings. -/
def strContains (hay needle : String) : Bool :=
  hasSubstr hay.data needle.data

/-- Strip `\s` characters from both ends (the effect of the greedy
`\s*` groups around the lazy capture in the fenced-block regex). -/
def pyStrip (cs : List Char) : List Char :=
  ((cs.dropWhile pyIsSpace).reverse.dropWhile pyIsSpace).reverse

/-! ## JSON values and `json.loads` -/

/-- JSON values as produced by `json.loads`.  Numbers are kept exact. -/
inductive Json where
  | null
  | bool (b : Bool)
  | num (q : ℚ)
  | str (s : String)
  | arr (xs : List Json)
  | obj (kvs : List (String × Json))

/-- Left brace character (written via its code point). -/
def lbrace : Char := Char.ofNat 123

/-- Right brace character (written via its code point). -/
def rbrace : Char := Char.ofNat 125

/-- JSON insignificant whitespace. -/
def jsonIsWs (c : Char) : Bool :=
  c = ' ' || c = '\t' || c = '\n' || c = '\r'

def jsonSkipWs (cs : List Char) : List Char :=
  cs.dropWhile jsonIsWs

def hexVal? (c : Char) : Option Nat :=
  if c.isDigit then some (c.toNat - 48)
  else if 'a' ≤ c ∧ c ≤ 'f' then some (c.toNat - 87)
  else if 'A' ≤ c ∧ c ≤ 'F' then some (c.toNat - 55)
  else none

/-- Read the body of a JSON string (after the opening quote), handling the
standard escape sequences; returns the decoded characters and the input
remaining after the closing quote. -/
def jsonReadStr : List Char → Option (List Char × List Char)
  | [] => none
  | c :: cs =>
    if c = '"' then some ([], cs)
    else if c = '\\' then
      match cs with
      | [] => none
      | e :: cs' =>
        if e = 'u' then
          match cs' with
          | h1 :: h2 :: h3 :: h4 :: rest =>
            match hexVal? h1, hexVal? h2, hexVal? h3, hexVal? h4 with
            | some a, some b, some c3, some d =>
              match jsonReadStr rest with
              | some (tail, r) => some (Char.ofNat (((a * 16 + b) * 16 + c3) * 16 + d) :: tail, r)
              | none => none
            | _, _, _, _ => none
          | _ => none
        else
          let dec : Option Char :=
            if e = '"' then some '"'
            else if e = '\\' then some '\\'
            else if e = '/' then some '/'
            else if e = 'b' then some '\x08'
            else if e = 'f' then some '\x0c'
            else if e = 'n' then some '\n'
            else if e = 'r' then some '\r'
            else if e = 't' then some '\t'
            else none
          match dec with
          | none => none
          | some d =>
            match jsonReadStr cs' with
            | some (tail, r) => some (d :: tail, r)
            | none => none
    else
      match jsonReadStr cs with
      | some (tail, r) => some (c :: tail, r)
      | none => none

def digitsToNat (cs : List Char) : Nat :=
  cs.foldl (fun acc c => acc * 10 + (c.toNat - 48)) 0

/-- Read a JSON number (the grammar of RFC 8259, which is also what
`json.loads` accepts for numbers). -/
def jsonReadNum : List Char → Option (ℚ × List Char) := fun cs =>
  let (neg, cs1) :=
    match cs with
    | '-' :: rest => (true, rest)
    | _ => (false, cs)
  let intDigits := cs1.takeWhile Char.isDigit
  let cs2 := cs1.drop intDigits.length
  if intDigits.isEmpty then none
  else if intDigits.length > 1 ∧ intDigits.head? = some '0' then none
  else
    let ival : ℚ := (digitsToNat intDigits : ℚ)
    let (fval, cs3) :=
      match cs2 with
      | '.' :: rest =>
        let fd := rest.takeWhile Char.isDigit
        if fd.isEmpty then (none, cs2)
        else (some ((digitsToNat fd : ℚ) / (10 : ℚ) ^ fd.length), rest.drop fd.length)
      | _ => (none, cs2)
    -- a lone '.' with no digits makes the whole number end before the dot
    match fval, cs2 with
    | none, '.' :: _ => none
    | _, _ =>
      let base : ℚ := ival + (fval.getD 0)
      let (eval?, cs4) :=
        match cs3 with
        | e :: rest =>
          if e = 'e' ∨ e = 'E' then
            let (esign, rest1) :=
              match rest with
              | '+' :: r => ((1 : Int), r)
              | '-' :: r => ((-1 : Int), r)
              | _ => ((1 : Int), rest)
            let ed := rest1.takeWhile Char.isDigit
            if ed.isEmpty then (none, cs3)
            else (some (esign * (digitsToNat ed : Int)), rest1.drop ed.length)
          else (none, cs3)
        | _ => (none, cs3)
      let scaled : ℚ :=
        match eval? with
        | none => base
        | some e => if e ≥ 0 then base * (10 : ℚ) ^ e.toNat else base / (10 : ℚ) ^ (-e).toNat
      some ((if neg then -scaled else scaled), cs4)

mutual

/-- Fuel-indexed recursive-descent reader for one JSON value. -/
def jsonReadVal : Nat → List Char → Option (Json × List Char)
  | 0, _ => none
  | fuel + 1, cs =>
    match jsonSkipWs cs with
    | [] => none
    | c :: rest =>
      if c = '"' then
        match jsonReadStr rest with
        | some (content, r) => some (.str ⟨content⟩, r)
        | none => none
      else if c = '[' then
        match jsonSkipWs rest with
        | ']' :: r => some (.arr [], r)
        | r => match jsonReadArrItems fuel r with
               | some (xs, r') => some (.arr xs, r')
               | none => none
      else if c = lbrace then
        match jsonSkipWs rest with
        | d :: r => if d = rbrace then some (.obj [], r)
                    else match jsonReadObjItems fuel (d :: r) with
                         | some (kvs, r') => some (.obj kvs, r')
                         | none => none
        | [] => none
      else if ['n', 'u', 'l', 'l'].isPrefixOf (c :: rest) then
        some (.null, (c :: rest).drop 4)
      else if ['t', 'r', 'u', 'e'].isPrefixOf (c :: rest) then
        some (.bool true, (c :: rest).drop 4)
      else if ['f', 'a', 'l', 's', 'e'].isPrefixOf (c :: rest) then
        some (.bool false, (c :: rest).drop 5)
      else
        match jsonReadNum (c :: rest) with
        | some (q, r) => some (.num q, r)
        | none => none

/-- Comma-separated array items up to the closing bracket. -/
def jsonReadArrItems : Nat → List Char → Option (List Json × List Char)
  | 0, _ => none
  | fuel + 1, cs =>
    match jsonReadVal fuel cs with
    | none => none
    | some (v, rest) =>
      match jsonSkipWs rest with
      | ',' :: r =>
        match jsonReadArrItems fuel r with
        | some (xs, r') => some (v :: xs, r')
        | none => none
      | ']' :: r => some ([v], r)
      | _ => none

/-- Comma-separated `"key": value` pairs up to the closing brace. -/
def jsonReadObjItems : Nat → List Char → Option (List (String × Json) × List Char)
  | 0, _ => none
  | fuel + 1, cs =>
    match jsonSkipWs cs with
    | '"' :: rest =>
      match jsonReadStr rest with
      | none => none
      | some (key, r1) =>
        match jsonSkipWs r1 with
        | ':' :: r2 =>
          match jsonReadVal fuel r2 with
          | none => none
          | some (v, r3) =>
            match jsonSkipWs r3 with
            | ',' :: r4 =>
              match jsonReadObjItems fuel r4 with
              | some (kvs, r') => some ((⟨key⟩, v) :: kvs, r')
              | none => none
            | d :: r4 =>
              if d = rbrace then some ([(⟨key⟩, v)], r4) else none
            | [] => none
        | _ => none
    | _ => none

end

/-- `json.loads`: the whole input must be exactly one JSON value surrounded
by optional whitespace; `none` models `json.JSONDecodeError`. -/
def jsonLoads (s : String) : Option Json :=
  match jsonReadVal (s.data.length + 1) s.data with
  | some (v, rest) => if (jsonSkipWs rest).isEmpty then some v else none
  | none => none

/-- `dict.get` for a decoded object: CPython builds the dict left to right,
later duplicate keys overwrite earlier ones, so lookup takes the last match. -/
def objGet (kvs : List (String × Json)) (key : String) : Option Json :=
  kvs.foldl (fun acc kv => if kv.1 = key then some kv.2 else acc) none

/-! ## `float(...)` -/

/-- `float(tok)` for a token captured by the `[0-9.]+` group of the
confidence regex: such a token holds only digits and dots, so it converts
exactly when it has at most one dot and at least one digit.
`none` models the `ValueError` that `float` raises otherwise. -/
def pyFloatOfToken? (cs : List Char) : Option ℚ :=
  let intPart := cs.takeWhile Char.isDigit
  let rest := cs.drop intPart.length
  match rest with
  | [] => if intPart.isEmpty then none else some (digitsToNat intPart : ℚ)
  | '.' :: frac =>
    if frac.all Char.isDigit ∧ ¬ (intPart.isEmpty ∧ frac.isEmpty) then
      some ((digitsToNat intPart : ℚ) + (digitsToNat frac : ℚ) / (10 : ℚ) ^ frac.length)
    else none
  | _ => none

/-- `float(s)` on an arbitrary string: optional surrounding whitespace and
sign, then a decimal with optional fraction and exponent.  The `inf`/`nan`
spellings and digit underscores that CPython also accepts are not modelled;
no claim exercises them. -/
def pyFloatOfStr? (s : String) : Option ℚ :=
  let cs := (s.data.dropWhile pyIsSpace).reverse.dropWhile pyIsSpace |>.reverse
  let (neg, cs1) :=
    match cs with
    | '-' :: rest => (true, rest)
    | '+' :: rest => (false, rest)
    | _ => (false, cs)
  let mantDigits := cs1.takeWhile (fun c => c.isDigit || c = '.')
  let cs2 := cs1.drop mantDigits.length
  match pyFloatOfToken? mantDigits with
  | none => none
  | some base =>
    match cs2 with
    | [] => some (if neg then -base else base)
    | e :: rest =>
      if e = 'e' ∨ e = 'E' then
        let (esign, rest1) :=
          match rest with
          | '+' :: r => ((1 : Int), r)
          | '-' :: r => ((-1 : Int), r)
          | _ => ((1 : Int), rest)
        let ed := rest1.takeWhile Char.isDigit
        if ed.isEmpty ∨ ¬ (rest1.drop ed.length).isEmpty then none
        else
          let ex := esign * (digitsToNat ed : Int)
          let v := if ex ≥ 0 then base * (10 : ℚ) ^ ex.toNat else base / (10 : ℚ) ^ (-ex).toNat
          some (if neg then -v else v)
      else none

/-- `float(x)` applied to a decoded JSON value (the `data.get("confidence", …)`
conversion).  Booleans are Python ints, strings go through the string
conversion (`ValueError` when malformed); `None`, lists and dicts raise
`TypeError`, which the source does **not** catch. -/
def pyFloatOfJson : Json → Except PyErr ℚ
  | .num q => .ok q
  | .bool b => .ok (if b then 1 else 0)
  | .str s =>
    match pyFloatOfStr? s with
    | some q => .ok q
    | none => .error .valueError
  | .null => .error .typeError
  | .arr _ => .error .typeError
  | .obj _ => .error .typeError

/-! ## The two regex scans of `parse_task_output` -/

/-- Everything strictly before the first occurrence of ` ``` `
(the lazy `(.*?)` up to the closing fence), or `none` if no fence follows. -/
def upToFence : List Char → Option (List Char)
  | [] => none
  | c :: cs =>
    if ['`', '`', '`'].isPrefixOf (c :: cs) then some []
    else (upToFence cs).map (c :: ·)

/-- `re.search(r'```json\s*(.*?)\s*```', raw, re.DOTALL)`: the captured group
is the text between the first ` ```json ` fence and the next ` ``` ` fence,
with surrounding `\s` stripped (the effect of the greedy `\s*` groups around
the lazy capture); `none` when no such pair of fences exists. -/
def findJsonBlock : List Char → Option (List Char)
  | [] => none
  | c :: cs =>
    if "```json".data.isPrefixOf (c :: cs) then
      match upToFence ((c :: cs).drop 7) with
      | some inner => some (pyStrip inner)
      | none => none
    else findJsonBlock cs

/-- Separator class `[:\s]` of the confidence regex. -/
def isConfSep (c : Char) : Bool := c = ':' || pyIsSpace c

/-- Attempt to match `[:\s]+([0-9.]+)` at the current position (right after
a literal `confidence`): both character classes are disjoint, so the greedy
quantifiers need no backtracking. -/
def confTokenAt (cs : List Char) : Option (List Char) :=
  let sep := cs.takeWhile isConfSep
  if sep.isEmpty then none
  else
    let tok := (cs.drop sep.length).takeWhile (fun c => c.isDigit || c = '.')
    if tok.isEmpty then none else some tok

/-- `re.search(r'confidence[:\s]+([0-9.]+)', text)`: leftmost match, returns
the captured `[0-9.]+` token. -/
def scanConfToken : List Char → Option (List Char)
  | [] => none
  | c :: cs =>
    match (if "confidence".data.isPrefixOf (c :: cs)
           then confTokenAt ((c :: cs).drop 10) else none) with
    | some tok => some tok
    | none => scanConfToken cs

/-! ## `ComputeType` -/

/-- The 13 orchestration compute types (`class ComputeType(Enum)`). -/
inductive ComputeType where
  | SEQUENTIAL
  | PARALLEL
  | SWARM
  | HIVEMIND
  | PIPELINE
  | SUPERVISOR_WORKER
  | HYBRID
  | MAP_REDUCE
  | TOURNAMENT
  | CRITIC_LOOP
  | ENSEMBLE
  | MESH_DISTRIBUTED
  | MESH_OFFENSIVE
deriving DecidableEq, Repr

/-- The `.value` string of each enum member. -/
def ComputeType.value : ComputeType → String
  | .SEQUENTIAL => "sequential"
  | .PARALLEL => "parallel"
  | .SWARM => "swarm"
  | .HIVEMIND => "hivemind"
  | .PIPELINE => "pipeline"
  | .SUPERVISOR_WORKER => "supervisor_worker"
  | .HYBRID => "hybrid"
  | .MAP_REDUCE => "map_reduce"
  | .TOURNAMENT => "tournament"
  | .CRITIC_LOOP => "critic_loop"
  | .ENSEMBLE => "ensemble"
  | .MESH_DISTRIBUTED => "mesh_distributed"
  | .MESH_OFFENSIVE => "mesh_offensive"

/-- All members in declaration order. -/
def allComputeTypes : List ComputeType :=
  [.SEQUENTIAL, .PARALLEL, .SWARM, .HIVEMIND, .PIPELINE, .SUPERVISOR_WORKER,
   .HYBRID, .MAP_REDUCE, .TOURNAMENT, .CRITIC_LOOP, .ENSEMBLE,
   .MESH_DISTRIBUTED, .MESH_OFFENSIVE]

/-- `ComputeType(s)`: the enum call, `none` when no member has value `s`
(in which case Python raises `ValueError`). -/
def computeTypeOfString (s : String) : Option ComputeType :=
  allComputeTypes.find? (fun ct => ct.value = s)

/-- The `try: ComputeType(s) except ValueError: ComputeType.PARALLEL`
resolution performed by `aggregate_from_json`. -/
def resolveComputeType (s : String) : ComputeType :=
  (computeTypeOfString s).getD ComputeType.PARALLEL

/-! ## `ChainResult` and the result parser -/

/-- `@dataclass ChainResult`.  `result` holds whatever Python value was
extracted (the raw text or the JSON block's `result` field), so it is a
`Json` value here; raw text is wrapped as `Json.str`.  The free-form
`metadata` dict is never read by the embedded code and is omitted. -/
structure ChainResult where
  chain_id : String
  result : Json
  confidence : ℚ
  agent_id : Option String := none

/-- `min(1.0, max(0.0, c))`. -/
def pyClamp (c : ℚ) : ℚ := min 1 (max 0 c)

/-- The `# Try to extract JSON` step of `parse_task_output`: starting from
the defaults `(0.5, raw_output)`, decode the fenced block if present.
`json.JSONDecodeError` and the `ValueError` of `float` on a malformed string
are swallowed (the defaults survive, including the raw text as result);
the `AttributeError` of `.get` on a non-dict value and the `TypeError` of
`float` on `None`/list/dict are **not** caught by the source and propagate. -/
def parse_block_step (raw_output : String) : Except PyErr (ℚ × Json) :=
  match findJsonBlock raw_output.data with
  | none => Except.ok ((1 : ℚ)/2, Json.str raw_output)
  | some inner =>
    match jsonLoads ⟨inner⟩ with
    | none => Except.ok ((1 : ℚ)/2, Json.str raw_output)  -- JSONDecodeError caught
    | some data =>
      match data with
      | .obj kvs =>
        match pyFloatOfJson ((objGet kvs "confidence").getD (.num ((1 : ℚ)/2))) with
        | .ok q => Except.ok (q, (objGet kvs "result").getD (Json.str raw_output))
        | .error .valueError => Except.ok ((1 : ℚ)/2, Json.str raw_output)  -- caught
        | .error e => Except.error e  -- TypeError: NOT caught by the source
      | _ => Except.error .attributeError  -- data.get on a non-dict: NOT caught

/-- The `# Look for confidence patterns` step of `parse_task_output`: the
first regex match's token, when `float` accepts it, replaces the
block-derived confidence, with the `>1 ⇒ /100` percentage rule. -/
def applyConfOverride (raw_output : String) (conf1 : ℚ) : ℚ :=
  match scanConfToken (pyLower raw_output).data with
  | none => conf1
  | some tok =>
    match pyFloatOfToken? tok with
    | none => conf1  -- ValueError caught
    | some v => if v > 1 then v / 100 else v

/-- `USFExecutor.parse_task_output`: block decode, confidence-pattern
override, final clamp to `[0, 1]`. -/
def parse_task_output (raw_output : String) (chain_id : String) : Except PyErr ChainResult := do
  let (conf1, res1) ← parse_block_step raw_output
  Except.ok { chain_id := chain_id, result := res1,
              confidence := pyClamp (applyConfOverride raw_output conf1) }

/-! ## Aggregation of chain results -/

/-- `USFExecutor._get_aggregation_method`: compute types outside the mapping
fall back to `"confidence_weighted_average"` via `dict.get`'s default. -/
def aggregation_method : ComputeType → String
  | .PARALLEL => "confidence_weighted_average"
  | .HIVEMIND => "majority_vote"
  | .SWARM => "best_of_n"
  | .TOURNAMENT => "elimination"
  | .SEQUENTIAL => "last_result"
  | .PIPELINE => "chain_refinement"
  | .ENSEMBLE => "weighted_combination"
  | _ => "confidence_weighted_average"

/-- `sum(r.confidence for r in results)`. -/
def sumConf : List ChainResult → ℚ
  | [] => 0
  | r :: rs => r.confidence + sumConf rs

/-- `sum(r.confidence ** 2 for r in results)`. -/
def sumSqConf : List ChainResult → ℚ
  | [] => 0
  | r :: rs => r.confidence ^ 2 + sumSqConf rs

/-- `max(results, key=lambda r: r.confidence)` starting from a current best:
Python's `max` keeps the earlier element on ties, updating only on a strictly
greater key. -/
def maxByConf (best : ChainResult) : List ChainResult → ChainResult
  | [] => best
  | r :: rs => maxByConf (if best.confidence < r.confidence then r else best) rs

/-- Stable insertion for the descending sort used by the elimination branch:
the inserted element comes earlier in the original list than everything
already sorted, so on equal keys it goes first (Python's sort is stable). -/
def insertDesc (r : ChainResult) : List ChainResult → List ChainResult
  | [] => [r]
  | x :: xs => if r.confidence < x.confidence then x :: insertDesc r xs else r :: x :: xs

/-- `sorted(results, key=lambda r: r.confidence, reverse=True)`. -/
def sortDescConf : List ChainResult → List ChainResult
  | [] => []
  | r :: rs => insertDesc r (sortDescConf rs)

/-- The dict returned by `aggregate_results` (and extended by
`aggregate_from_json`).  Only the keys the claims read are modelled:
`confidence`, `result` (absent in the `no_chain_results` dict, hence an
`Option`), `status` and `method`; the informational extras
(`chain_count`, `votes`, `chain_id`, `winner`) are per-branch decorations
no claim depends on. -/
structure AggOutcome where
  confidence : ℚ
  result : Option Json
  status : String
  method : Option String := none

/-- The `{"confidence": 0, "result": "", "status": "no_results"}` dict. -/
def noResultsOutcome : AggOutcome :=
  { confidence := 0, result := some (.str ""), status := "no_results" }

/-- The `confidence_weighted_average` branch of `aggregate_results`
(including the empty-input guard, so that the `majority_vote` branch's
recursive `aggregate_results(results, ComputeType.PARALLEL)` call can be
expressed with it). -/
def cwaAggregate : List ChainResult → AggOutcome
  | [] => noResultsOutcome
  | r :: rs =>
    let total_weight := sumConf (r :: rs)
    if total_weight = 0 then
      { confidence := 0, result := some r.result, status := "zero_confidence" }
    else
      { confidence := sumSqConf (r :: rs) / total_weight
        result := some (maxByConf r rs).result
        status := "success"
        method := some "confidence_weighted_average" }

/-- `[r for r in results if r.confidence >= 0.6]`. -/
def highConf (results : List ChainResult) : List ChainResult :=
  results.filter (fun x => decide ((3 : ℚ)/5 ≤ x.confidence))

/-- The `majority_vote` branch of `aggregate_results`: fewer than 3 results
delegate to `aggregate_results(results, ComputeType.PARALLEL)`, i.e. the
confidence-weighted average of the same (non-empty) list. -/
def majorityVote (r : ChainResult) (rs : List ChainResult) : AggOutcome :=
  if (r :: rs).length < 3 then cwaAggregate (r :: rs)
  else
    let high_conf := highConf (r :: rs)
    if ((r :: rs).length : ℚ) * ((3 : ℚ)/5) ≤ (high_conf.length : ℚ) then
      match high_conf with
      | [] => noResultsOutcome  -- unreachable: the vote threshold forces high_conf ≠ []
      | h :: t =>
        { confidence := sumConf (h :: t) / ((h :: t).length : ℚ)
          result := some (maxByConf h t).result
          status := "consensus"
          method := some "majority_vote" }
    else
      { confidence := (1 : ℚ)/2, result := some r.result, status := "no_consensus" }

/-- The `best_of_n` branch of `aggregate_results`. -/
def bestOfN (r : ChainResult) (rs : List ChainResult) : AggOutcome :=
  let best := maxByConf r rs
  { confidence := best.confidence, result := some best.result,
    status := "success", method := some "best_of_n" }

/-- The `elimination` branch of `aggregate_results`. -/
def eliminationAggregate (r : ChainResult) (rs : List ChainResult) : AggOutcome :=
  match sortDescConf (r :: rs) with
  | [] => noResultsOutcome  -- unreachable: sorting a non-empty list
  | winner :: _ =>
    { confidence := winner.confidence, result := some winner.result,
      status := "success", method := some "elimination" }

/-- The final `else` branch of `aggregate_results` (last result). -/
def lastResultAggregate (r : ChainResult) (rs : List ChainResult) : AggOutcome :=
  let last := (r :: rs).getLast (by simp)
  { confidence := last.confidence, result := some last.result,
    status := "success", method := some "last_result" }

/-- `USFExecutor.aggregate_results`.  The branch on the method string follows
the source's `if`/`elif` chain; note that the `chain_refinement` and
`weighted_combination` labels fall through to the final `else` (last result),
exactly as in the source. -/
def aggregate_results (results : List ChainResult) (compute_type : ComputeType) : AggOutcome :=
  match results with
  | [] => noResultsOutcome
  | r :: rs =>
    let method := aggregation_method compute_type
    if method = "confidence_weighted_average" then cwaAggregate (r :: rs)
    else if method = "majority_vote" then majorityVote r rs
    else if method = "best_of_n" then bestOfN r rs
    else if method = "elimination" then eliminationAggregate r rs
    else lastResultAggregate r rs

/-! ## Chains, archetypes, domains -/

/-- `list(USFExecutor.CHAIN_PROMPTS.keys())` in declaration order.  The
prompt template bodies are free text with no bearing on any claim and are
not reproduced. -/
def CHAIN_PROMPTS_keys : List String :=
  ["A_SINGLE_SOURCE", "B_DUAL_SOURCE", "C_TRIPLE_SOURCE", "D_ADVERSARIAL",
   "E_MATHEMATICAL", "F_DOMAIN_EXPERT", "G_TEMPORAL", "H_CONSENSUS",
   "I_STREAMING"]

/-- `USFExecutor.get_chains_for_precision`. -/
def get_chains_for_precision (precision_level : Int) : List String :=
  if precision_level ≥ 5 then CHAIN_PROMPTS_keys
  else if precision_level = 4 then CHAIN_PROMPTS_keys.take 6
  else if precision_level = 3 then ["A_SINGLE_SOURCE", "B_DUAL_SOURCE", "D_ADVERSARIAL"]
  else if precision_level = 2 then ["A_SINGLE_SOURCE", "B_DUAL_SOURCE"]
  else ["A_SINGLE_SOURCE"]

/-- One entry of `ArchetypeLoader.ARCHETYPES`. -/
structure Archetype where
  name : String
  primary_mode : String
  cognitive_patterns : List String
  domains : List (String × String)

/-- `ArchetypeLoader.ARCHETYPES` in declaration order. -/
def ARCHETYPES : List (String × Archetype) :=
  [("ARC-TH",
    { name := "Theoretical", primary_mode := "constructive_analysis"
      cognitive_patterns :=
        ["first_principles_decomposition", "formal_verification",
         "completeness_checking", "invariant_identification", "proof_construction"]
      domains :=
        [("security", "Security Researcher"), ("crypto", "Cryptographer"),
         ("software", "Software Architect"), ("legal", "Legal Theorist"),
         ("default", "Domain Theorist")] }),
   ("ARC-AD",
    { name := "Adversarial", primary_mode := "destructive_analysis"
      cognitive_patterns :=
        ["attack_surface_mapping", "assumption_violation", "edge_case_exploitation",
         "failure_mode_analysis", "threat_modeling"]
      domains :=
        [("security", "Red Team Operator"), ("crypto", "Cryptanalyst"),
         ("software", "Bug Hunter"), ("legal", "Opposing Counsel"),
         ("default", "Adversarial Analyst")] }),
   ("ARC-IM",
    { name := "Implementation", primary_mode := "constructive_engineering"
      cognitive_patterns :=
        ["practical_constraints", "optimization_focus", "scalability_analysis",
         "integration_planning", "resource_estimation"]
      domains :=
        [("security", "Security Engineer"), ("crypto", "Cryptographic Engineer"),
         ("software", "Senior Developer"), ("legal", "Compliance Officer"),
         ("default", "Implementation Specialist")] }),
   ("ARC-ST",
    { name := "Strategic", primary_mode := "holistic_synthesis"
      cognitive_patterns :=
        ["stakeholder_analysis", "risk_assessment", "timeline_planning",
         "trade_off_evaluation", "big_picture_integration"]
      domains :=
        [("security", "Security Strategist"), ("crypto", "Protocol Architect"),
         ("software", "Technical Lead"), ("legal", "General Counsel"),
         ("default", "Strategic Planner")] }),
   ("ARC-QA",
    { name := "Quality Assurance", primary_mode := "verification_validation"
      cognitive_patterns :=
        ["test_coverage_analysis", "regression_detection", "compliance_verification",
         "documentation_review", "acceptance_criteria"]
      domains :=
        [("security", "Security Auditor"), ("crypto", "Protocol Auditor"),
         ("software", "QA Engineer"), ("legal", "Legal Reviewer"),
         ("default", "Quality Analyst")] })]

/-- Association-list lookup (first match, as a Python dict with unique keys). -/
def alistGet (kvs : List (String × String)) (key : String) : Option String :=
  (kvs.find? (fun kv => kv.1 = key)).map (·.2)

/-- `ArchetypeLoader.DOMAIN_KEYWORDS` in declaration order. -/
def DOMAIN_KEYWORDS : List (String × List String) :=
  [("security", ["security", "vulnerability", "exploit", "attack", "defense", "pentest", "audit"]),
   ("crypto", ["cryptograph", "encrypt", "cipher", "hash", "signature", "key", "protocol"]),
   ("software", ["code", "function", "class", "api", "refactor", "bug", "feature"]),
   ("legal", ["legal", "compliance", "regulation", "contract", "liability", "policy"])]

/-- `ArchetypeLoader.detect_domain`: first domain (in table order) with any
keyword occurring as a substring of the lowercased task, else `"default"`. -/
def detect_domain (task : String) : String :=
  let task_lower := pyLower task
  match DOMAIN_KEYWORDS.find? (fun dk => dk.2.any (fun kw => strContains task_lower kw)) with
  | some dk => dk.1
  | none => "default"

/-- `ArchetypeLoader.synthesize_persona`, reduced to the persona title (the
only part of the persona a generated work item's description exposes).
Raises `ValueError` for an id outside the table; every table entry carries a
`"default"` domain title, so the inner `getD ""` default never fires on the
real table. -/
def synthesize_title (archetype_id : String) (domain : String) : Except PyErr String :=
  match (ARCHETYPES.find? (fun a => a.1 = archetype_id)).map (·.2) with
  | none => .error .valueError
  | some arch => .ok ((alistGet arch.domains domain).getD ((alistGet arch.domains "default").getD ""))

/-- `ArchetypeLoader.compose_panel` (its `domain` argument is unused in the
source).  Required ids first, then remaining archetypes in table order while
the panel is short, truncated to `panel_size`. -/
def compose_panel (panel_size : Int) (required_archetypes : List String) : List String :=
  let panel := (ARCHETYPES.map (·.1)).foldl
    (fun p arc_id => if arc_id ∉ p ∧ (p.length : Int) < panel_size then p ++ [arc_id] else p)
    required_archetypes
  panel.take panel_size.toNat

/-! ## Execution plans and work-item generation -/

/-- `@dataclass USFExecutionPlan` (the `template`/`mode` defaults are never
read by the embedded code paths and are omitted). -/
structure USFExecutionPlan where
  task : String
  engines : List String
  chains : List String
  compute_type : ComputeType
  precision_level : Int
  profile : String

/-- The body of `USFExecutor.create_execution_plan` once the compute-type
string has been converted to an enum member. -/
def create_execution_plan_core (task : String) (compute_type : ComputeType)
    (precision_level : Int) (profile : String) : USFExecutionPlan :=
  let chains := get_chains_for_precision precision_level
  let engines := ["ENGINE_4_VERIFICATION", "ENGINE_10_PARALLEL_VERIFICATION"]
    ++ (if profile = "fire_and_forget" then ["ENGINE_12_FULL_AUTONOMY"] else [])
  { task := task, engines := engines, chains := chains,
    compute_type := compute_type, precision_level := precision_level, profile := profile }

/-- `USFExecutor.create_execution_plan`: `ComputeType(compute_type)` raises
`ValueError` when the string is not one of the 13 enum values. -/
def create_execution_plan (task : String) (compute_type : String)
    (precision_level : Int) (profile : String) : Except PyErr USFExecutionPlan :=
  match computeTypeOfString compute_type with
  | none => .error .valueError
  | some ct => .ok (create_execution_plan_core task ct precision_level profile)

/-- A Task-tool invocation dict produced by `get_task_commands` /
`create_archetype_panel_commands`.  The free-text `prompt` field is not
modelled (no claim reads it); the optional topology markers are. -/
structure TaskCommand where
  description : String
  subagent_type : String
  run_in_background : Bool
  mesh_node : Option Nat := none
  mesh_type : Option String := none

/-- `chain_id.split('_')[0]`. -/
def chainPrefix (chain_id : String) : String :=
  (chain_id.splitOn "_").headD ""

/-- `USFExecutor._create_chain_command` (its `domain` argument is unused in
the source body). -/
def create_chain_command (chain_id : String) (background : Bool) : TaskCommand :=
  { description := "Chain-" ++ chainPrefix chain_id ++ " verify"
    subagent_type := "general-purpose"
    run_in_background := background }

/-- `enumerate(...)` index paired with each element. -/
def enumerateList (l : List String) : List (Nat × String) :=
  (List.range l.length).zip l

/-- `USFExecutor.get_task_commands`: dispatch on the plan's compute type into
the 13 generation rules (the trailing `else` of the source defaults to the
parallel rule but is unreachable for enum values, all 13 being matched). -/
def get_task_commands (plan : USFExecutionPlan) : List TaskCommand :=
  match plan.compute_type with
  | .SEQUENTIAL => plan.chains.map (fun c => create_chain_command c false)
  | .PARALLEL => plan.chains.map (fun c => create_chain_command c true)
  | .SWARM => plan.chains.map (fun c => create_chain_command c true)
  | .HIVEMIND => plan.chains.map (fun c => create_chain_command c true)
  | .PIPELINE => plan.chains.map (fun c => create_chain_command c false)
  | .TOURNAMENT => plan.chains.map (fun c => create_chain_command c true)
  | .CRITIC_LOOP =>
    [{ description := "Initial analysis", subagent_type := "Explore", run_in_background := false },
     { description := "Critic review", subagent_type := "general-purpose", run_in_background := false }]
  | .ENSEMBLE =>
    [{ description := "Ensemble analytical", subagent_type := "Explore", run_in_background := true },
     { description := "Ensemble creative", subagent_type := "general-purpose", run_in_background := true },
     { description := "Ensemble skeptical", subagent_type := "general-purpose", run_in_background := true }]
  | .SUPERVISOR_WORKER =>
    { description := "Supervisor coordinator", subagent_type := "Plan", run_in_background := false }
    :: (enumerateList plan.chains).map (fun ic =>
        { description := "Worker " ++ toString (ic.1 + 1) ++ " (" ++ chainPrefix ic.2 ++ ")"
          subagent_type := "general-purpose", run_in_background := true })
  | .MAP_REDUCE =>
    (enumerateList plan.chains).map (fun ic =>
        { description := "Map worker " ++ toString (ic.1 + 1)
          subagent_type := "general-purpose", run_in_background := true })
    ++ [{ description := "Reduce aggregator", subagent_type := "Plan", run_in_background := false }]
  | .HYBRID =>
    plan.chains.map (fun c => create_chain_command c true)
    ++ [{ description := "Hybrid synthesizer", subagent_type := "Plan", run_in_background := false }]
  | .MESH_DISTRIBUTED =>
    (enumerateList plan.chains).map (fun ic =>
        { description := "Mesh node " ++ toString (ic.1 + 1) ++ " (" ++ chainPrefix ic.2 ++ ")"
          subagent_type := "Explore", run_in_background := true, mesh_node := some ic.1 })
  | .MESH_OFFENSIVE =>
    (enumerateList plan.chains).map (fun ic =>
        { description := "Offensive node " ++ toString (ic.1 + 1) ++ " (" ++ chainPrefix ic.2 ++ ")"
          subagent_type := "general-purpose", run_in_background := true, mesh_type := some "offensive" })

/-- `USFExecutor.create_archetype_panel_commands` with no required
archetypes (the only way the embedded call sites invoke it).  The panel ids
come from the archetype table, so each `synthesize_title` lookup succeeds;
`filterMap` keeps the one-command-per-panel-member shape of the source loop. -/
def create_archetype_panel_commands (domain : String) (panel_size : Int) : List TaskCommand :=
  (compose_panel panel_size []).filterMap (fun archetype_id =>
    match synthesize_title archetype_id domain with
    | .ok title => some
        { description := title ++ " (" ++ archetype_id ++ ")"
          subagent_type := "general-purpose"
          run_in_background := true }
    | .error _ => none)

/-- The dict returned by `USFExecutor.create_smart_execution_plan` (the
nested `"aggregation"` dict is flattened into its three entries). -/
structure SmartPlan where
  task : String
  domain_detected : String
  precision_level : Int
  compute_type : String
  chain_commands : List TaskCommand
  archetype_commands : List TaskCommand
  execution_mode : String
  aggregation_method : String
  chain_weight : ℚ
  archetype_weight : ℚ
  total_agents : Nat

/-- `USFExecutor.create_smart_execution_plan`.  The internal
`create_execution_plan` call always uses the default `"parallel"` compute
type, so the enum conversion cannot fail here. -/
def create_smart_execution_plan (task : String) (precision_level : Int)
    (use_archetypes : Bool) : SmartPlan :=
  let domain := detect_domain task
  let plan := create_execution_plan_core task .PARALLEL precision_level "autonomous"
  let chain_commands := get_task_commands plan
  let archetype_commands :=
    if use_archetypes then
      create_archetype_panel_commands domain (min (precision_level + 2) 7)
    else []
  { task := task
    domain_detected := domain
    precision_level := precision_level
    compute_type := plan.compute_type.value
    chain_commands := chain_commands
    archetype_commands := archetype_commands
    execution_mode :=
      if plan.compute_type = .PARALLEL ∨ plan.compute_type = .SWARM ∨ plan.compute_type = .HIVEMIND
      then "parallel" else "sequential"
    aggregation_method := aggregation_method plan.compute_type
    chain_weight := (3 : ℚ)/5
    archetype_weight := (2 : ℚ)/5
    total_agents := chain_commands.length + archetype_commands.length }

/-- The plan-producing portion of `usf.py main()` when `--auto` is absent and
a (argparse-validated) `--compute` value is given: the smart plan is built
first, then — since `not args.auto` holds — the override branch replaces
`compute_type` and regenerates `chain_commands` from a fresh internal plan,
leaving every other field (including `total_agents` and `execution_mode`)
untouched.  `USFRunner.prepare` performs the same override. -/
def cli_plan_explicit (task : String) (compute : ComputeType) (precision : Int)
    (no_archetypes : Bool) : SmartPlan :=
  let plan := create_smart_execution_plan task precision (!no_archetypes)
  let internal := create_execution_plan_core task compute precision "autonomous"
  { plan with
    compute_type := compute.value
    chain_commands := get_task_commands internal }

/-! ## Top-level aggregation (`aggregate_from_json`) -/

/-- One raw task output handed to `aggregate_from_json`
(`{task_id, output, description}`, any key possibly missing). -/
structure TaskOutput where
  task_id : Option String := none
  output : String := ""
  description : Option String := none

/-- `output.get("description", output.get("task_id", "unknown"))`. -/
def chainIdOf (o : TaskOutput) : String :=
  o.description.getD (o.task_id.getD "unknown")

/-- The archetype test of the separation loop:
`"archetype" in chain_id.lower() or "ARC-" in chain_id or "ARC-" in raw_output`.
Note that the **raw output text** participates, not only the source label. -/
def isArchetypeOutput (o : TaskOutput) : Bool :=
  strContains (pyLower (chainIdOf o)) "archetype"
  || strContains (chainIdOf o) "ARC-"
  || strContains o.output "ARC-"

/-- The separation loop of `aggregate_from_json`: parse each output (the
first uncaught parser exception propagates), then append the parsed result
to the chain list or the archetype list. -/
def collectResults : List TaskOutput → Except PyErr (List ChainResult × List ChainResult)
  | [] => .ok ([], [])
  | o :: os => do
    let r0 ← parse_task_output o.output (chainIdOf o)
    let r := { r0 with agent_id := o.task_id }
    let (cs, as_) ← collectResults os
    if isArchetypeOutput o then .ok (cs, r :: as_) else .ok (r :: cs, as_)

/-- `r.result[:500]`: slicing works on strings and lists, and raises
`TypeError` on every other value the parser can have stored there. -/
def truncResult : Json → Except PyErr Json
  | .str s => .ok (.str (s.take 500))
  | .arr xs => .ok (.arr (xs.take 500))
  | _ => .error .typeError

/-- The `plan` dict argument of `aggregate_from_json`, reduced to the two
keys it reads, with the `dict.get` defaults (`"parallel"`, `3`) applied. -/
structure PlanDict where
  compute_type : String := "parallel"
  precision_level : Int := 3

/-- The final aggregated dict of `aggregate_from_json`. -/
structure AggFinal where
  confidence : ℚ
  result : Option Json
  status : String
  method : Option String
  chain_results : List (String × ℚ × Json)
  archetype_results : List (String × ℚ × Json)
  chain_count : Nat
  archetype_count : Nat
  total_agents : Nat
  compute_type : String
  precision_level : Int
  aggregation_method : String

/-- The `if chain_results: … else {"confidence": 0, "status": "no_chain_results"}`
step of `aggregate_from_json`. -/
def aggregatedOutcome (chain_results : List ChainResult) (compute_type : ComputeType) : AggOutcome :=
  match chain_results with
  | [] => { confidence := 0, result := none, status := "no_chain_results" }
  | r :: rs => aggregate_results (r :: rs) compute_type

/-- The `# Combine confidences: 60% chains, 40% archetypes` step of
`aggregate_from_json`. -/
def blendConfidence (aggConf : ℚ) (chain_results archetype_results : List ChainResult) : ℚ :=
  match archetype_results with
  | [] => aggConf
  | a :: as_ =>
    let archetype_confidence := sumConf (a :: as_) / ((a :: as_).length : ℚ)
    match chain_results with
    | _ :: _ => aggConf * ((3 : ℚ)/5) + archetype_confidence * ((2 : ℚ)/5)
    | [] => archetype_confidence

/-- `USFExecutor.aggregate_from_json`. -/
def aggregate_from_json (task_outputs : List TaskOutput) (plan : PlanDict) :
    Except PyErr AggFinal := do
  let compute_type := resolveComputeType plan.compute_type
  let (chain_results, archetype_results) ← collectResults task_outputs
  let aggregated := aggregatedOutcome chain_results compute_type
  let chainPrev ← chain_results.mapM (fun r =>
    (truncResult r.result).map (fun t => (r.chain_id, r.confidence, t)))
  let archPrev ← archetype_results.mapM (fun r =>
    (truncResult r.result).map (fun t => (r.chain_id, r.confidence, t)))
  let confidence := blendConfidence aggregated.confidence chain_results archetype_results
  .ok
    { confidence := confidence
      result := aggregated.result
      status := aggregated.status
      method := aggregated.method
      chain_results := chainPrev
      archetype_results := archPrev
      chain_count := chain_results.length
      archetype_count := archetype_results.length
      total_agents := task_outputs.length
      compute_type := plan.compute_type
      precision_level := plan.precision_level
      aggregation_method := aggregation_method compute_type }

/-! ## Concrete sample inputs used by the claim theorems -/

def c1a : ChainResult := { chain_id := "1", result := .str "a", confidence := (8 : ℚ)/10 }

def c1b : ChainResult := { chain_id := "2", result := .str "b", confidence := (9 : ℚ)/10 }

def c6r1 : ChainResult := { chain_id := "1", result := .str "a", confidence := (7 : ℚ)/10 }

def c6r2 : ChainResult := { chain_id := "2", result := .str "b", confidence := (8 : ℚ)/10 }

def c6r3 : ChainResult := { chain_id := "3", result := .str "c", confidence := (2 : ℚ)/10 }

/-- A raw output whose fenced block decodes to a JSON array: `list.get`
raises `AttributeError`, so the later confidence label is never reached. -/
def c8raw : String := "```json\n[1, 2]\n``` confidence: 95"

/-- A raw output with a low block confidence and a percentage label. -/
def c8wraw : String := "```json\n\x7b\"confidence\": 0.2\x7d\n``` confidence: 95"

/-- What `parse_task_output c8wraw "u"` returns: the label 95 overrides the
block's 0.2, is percentage-normalized and clamped. -/
def c8wres : ChainResult :=
  { chain_id := "u", result := .str c8wraw, confidence := (19 : ℚ)/20 }

/-- Two outputs: the first is labelled as a chain result but its raw text
contains `"ARC-"`, so the code classifies it as a persona result. -/
def c7badOutputs : List TaskOutput :=
  [{ task_id := some "1", output := "confidence: 0.8 ARC-", description := some "Chain-A verify" },
   { task_id := some "2", output := "confidence: 0.5", description := some "Security Auditor (ARC-QA)" }]

/-- One genuine chain output and one genuine persona output. -/
def c7goodOutputs : List TaskOutput :=
  [{ task_id := some "1", output := "confidence: 0.8", description := some "Chain-A verify" },
   { task_id := some "2", output := "confidence: 0.5", description := some "Security Auditor (ARC-QA)" }]

/-- The parsed chain result of `c7goodOutputs`. -/
def c7r1 : ChainResult :=
  { chain_id := "Chain-A verify", result := .str "confidence: 0.8",
    confidence := (4 : ℚ)/5, agent_id := some "1" }

/-- The parsed persona result of `c7goodOutputs`. -/
def c7r2 : ChainResult :=
  { chain_id := "Security Auditor (ARC-QA)", result := .str "confidence: 0.5",
    confidence := (1 : ℚ)/2, agent_id := some "2" }

def c10r : ChainResult := { chain_id := "w", result := .str "x", confidence := (9 : ℚ)/10 }

def c10outs : List TaskOutput :=
  [{ task_id := some "1", output := "confidence: 0.9", description := some "Chain-A verify" }]

/-! ## Helper lemmas -/

lemma pyClamp_nonneg (c : ℚ) : 0 ≤ pyClamp c :=
  le_min (by norm_num) (le_max_left 0 c)

lemma pyClamp_le_one (c : ℚ) : pyClamp c ≤ 1 :=
  min_le_left 1 _

lemma maxByConf_spec (l : List ChainResult) : ∀ best : ChainResult,
    (maxByConf best l = best ∨ maxByConf best l ∈ l)
    ∧ best.confidence ≤ (maxByConf best l).confidence
    ∧ ∀ r ∈ l, r.confidence ≤ (maxByConf best l).confidence := by
  induction l with
  | nil => intro best; exact ⟨Or.inl rfl, le_refl _, by simp⟩
  | cons x xs ih =>
    intro best
    simp only [maxByConf]
    obtain ⟨hmem, hle, hall⟩ := ih (if best.confidence < x.confidence then x else best)
    refine ⟨?_, ?_, ?_⟩
    · rcases hmem with h | h
      · rw [h]; split_ifs with hc
        · exact Or.inr (List.mem_cons_self _ _)
        · exact Or.inl rfl
      · exact Or.inr (List.mem_cons_of_mem _ h)
    · refine le_trans ?_ hle
      split_ifs with hc
      · exact le_of_lt hc
      · exact le_refl _
    · intro r hr
      rcases List.mem_cons.mp hr with h | h
      · subst h
        refine le_trans ?_ hle
        split_ifs with hc
        · exact le_refl _
        · exact le_of_not_lt hc
      · exact hall r h

lemma mem_insertDesc {x r : ChainResult} {l : List ChainResult}
    (h : x ∈ insertDesc r l) : x = r ∨ x ∈ l := by
  induction l with
  | nil => simpa [insertDesc] using h
  | cons y ys ih =>
    simp only [insertDesc] at h
    split_ifs at h with hc
    · rcases List.mem_cons.mp h with h1 | h1
      · exact Or.inr (by simp [h1])
      · rcases ih h1 with h2 | h2
        · exact Or.inl h2
        · exact Or.inr (List.mem_cons_of_mem _ h2)
    · rcases List.mem_cons.mp h with h1 | h1
      · exact Or.inl h1
      · exact Or.inr h1

lemma mem_sortDescConf {x : ChainResult} : ∀ {l : List ChainResult},
    x ∈ sortDescConf l → x ∈ l := by
  intro l
  induction l with
  | nil => simp [sortDescConf]
  | cons y ys ih =>
    intro h
    rcases mem_insertDesc (by simpa [sortDescConf] using h) with h1 | h1
    · simp [h1]
    · exact List.mem_cons_of_mem _ (ih h1)

lemma sumConf_nonneg {l : List ChainResult} (h : ∀ r ∈ l, 0 ≤ r.confidence) :
    0 ≤ sumConf l := by
  induction l with
  | nil => simp [sumConf]
  | cons r rs ih =>
    simp only [sumConf]
    have h1 := h r (List.mem_cons_self _ _)
    have h2 := ih (fun x hx => h x (List.mem_cons_of_mem _ hx))
    linarith

lemma sumConf_le_length {l : List ChainResult} (h : ∀ r ∈ l, r.confidence ≤ 1) :
    sumConf l ≤ (l.length : ℚ) := by
  induction l with
  | nil => simp [sumConf]
  | cons r rs ih =>
    simp only [sumConf, List.length_cons]
    have h1 := h r (List.mem_cons_self _ _)
    have h2 := ih (fun x hx => h x (List.mem_cons_of_mem _ hx))
    push_cast
    linarith

lemma sumSqConf_nonneg (l : List ChainResult) : 0 ≤ sumSqConf l := by
  induction l with
  | nil => simp [sumSqConf]
  | cons r rs ih =>
    simp only [sumSqConf]
    have := sq_nonneg r.confidence
    linarith

lemma sumSqConf_le_mul {l : List ChainResult} {m : ℚ}
    (h0 : ∀ r ∈ l, 0 ≤ r.confidence) (hm : ∀ r ∈ l, r.confidence ≤ m) :
    sumSqConf l ≤ m * sumConf l := by
  induction l with
  | nil => simp [sumSqConf, sumConf]
  | cons r rs ih =>
    simp only [sumSqConf, sumConf, mul_add]
    have h1 : r.confidence ^ 2 ≤ m * r.confidence := by
      have := h0 r (List.mem_cons_self _ _)
      have := hm r (List.mem_cons_self _ _)
      nlinarith
    have h2 := ih (fun x hx => h0 x (List.mem_cons_of_mem _ hx))
      (fun x hx => hm x (List.mem_cons_of_mem _ hx))
    linarith

/-- The confidence-weighted average never exceeds any upper bound of the
input confidences (so in particular not their maximum), and is nonnegative. -/
lemma cwaAggregate_le (r : ChainResult) (rs : List ChainResult) (m : ℚ)
    (h0 : ∀ x ∈ r :: rs, 0 ≤ x.confidence) (hm : ∀ x ∈ r :: rs, x.confidence ≤ m) :
    0 ≤ (cwaAggregate (r :: rs)).confidence ∧ (cwaAggregate (r :: rs)).confidence ≤ m := by
  have hm0 : 0 ≤ m :=
    le_trans (h0 r (List.mem_cons_self _ _)) (hm r (List.mem_cons_self _ _))
  simp only [cwaAggregate]
  split_ifs with hz
  · exact ⟨le_refl 0, hm0⟩
  · have htot0 : 0 ≤ sumConf (r :: rs) := sumConf_nonneg h0
    have htot : 0 < sumConf (r :: rs) := lt_of_le_of_ne htot0 (Ne.symm hz)
    constructor
    · exact div_nonneg (sumSqConf_nonneg _) htot0
    · rw [div_le_iff₀ htot]
      exact sumSqConf_le_mul h0 hm

lemma majorityVote_bounds (r : ChainResult) (rs : List ChainResult)
    (hb : ∀ x ∈ r :: rs, 0 ≤ x.confidence ∧ x.confidence ≤ 1) :
    0 ≤ (majorityVote r rs).confidence ∧ (majorityVote r rs).confidence ≤ 1 := by
  have h0 : ∀ x ∈ r :: rs, 0 ≤ x.confidence := fun x hx => (hb x hx).1
  have h1 : ∀ x ∈ r :: rs, x.confidence ≤ 1 := fun x hx => (hb x hx).2
  simp only [majorityVote]
  split_ifs with hlen hth
  · exact cwaAggregate_le r rs 1 h0 h1
  · cases hhc : highConf (r :: rs) with
    | nil => exact ⟨by norm_num [noResultsOutcome], by norm_num [noResultsOutcome]⟩
    | cons h t =>
      have hsub : ∀ x ∈ h :: t, x ∈ r :: rs := by
        intro x hx
        rw [← hhc] at hx
        simp only [highConf] at hx
        exact (List.mem_filter.mp hx).1
      have hs0 : 0 ≤ sumConf (h :: t) :=
        sumConf_nonneg (fun x hx => h0 x (hsub x hx))
      have hs1 : sumConf (h :: t) ≤ ((h :: t).length : ℚ) :=
        sumConf_le_length (fun x hx => h1 x (hsub x hx))
      have hlp : (0 : ℚ) < ((h :: t).length : ℚ) := by
        simp only [List.length_cons]
        push_cast
        positivity
      constructor
      · exact div_nonneg hs0 (le_of_lt hlp)
      · rw [div_le_one hlp]
        exact hs1
  · exact ⟨by norm_num, by norm_num⟩

lemma aggregate_results_bounds (results : List ChainResult) (ct : ComputeType)
    (hne : results ≠ [])
    (hb : ∀ x ∈ results, 0 ≤ x.confidence ∧ x.confidence ≤ 1) :
    0 ≤ (aggregate_results results ct).confidence
    ∧ (aggregate_results results ct).confidence ≤ 1 := by
  match results, hne with
  | r :: rs, _ =>
    have h0 : ∀ x ∈ r :: rs, 0 ≤ x.confidence := fun x hx => (hb x hx).1
    have h1 : ∀ x ∈ r :: rs, x.confidence ≤ 1 := fun x hx => (hb x hx).2
    simp only [aggregate_results]
    split_ifs with hm1 hm2 hm3 hm4
    · exact cwaAggregate_le r rs 1 h0 h1
    · exact majorityVote_bounds r rs hb
    · simp only [bestOfN]
      obtain ⟨hmem, _, _⟩ := maxByConf_spec rs r
      rcases hmem with h | h
      · rw [h]; exact hb r (List.mem_cons_self _ _)
      · exact hb _ (List.mem_cons_of_mem _ h)
    · simp only [eliminationAggregate]
      cases hs : sortDescConf (r :: rs) with
      | nil => exact ⟨by norm_num [noResultsOutcome], by norm_num [noResultsOutcome]⟩
      | cons w ws =>
        have hw : w ∈ r :: rs := mem_sortDescConf (by rw [hs]; exact List.mem_cons_self _ _)
        exact hb w hw
    · simp only [lastResultAggregate]
      exact hb _ (List.getLast_mem _)


lemma parse_task_output_ok_bounds {raw cid : String} {r : ChainResult}
    (h : parse_task_output raw cid = .ok r) :
    0 ≤ r.confidence ∧ r.confidence ≤ 1 := by
  unfold parse_task_output at h
  cases hb : parse_block_step raw with
  | error e => rw [hb] at h; simp [Bind.bind, Except.bind] at h
  | ok p =>
    rw [hb] at h
    simp only [Bind.bind, Except.bind, Except.ok.injEq] at h
    rw [← h]
    exact ⟨pyClamp_nonneg _, pyClamp_le_one _⟩

/-- The outputs the separation loop sends to the chain list. -/
def chainOutputs (outs : List TaskOutput) : List TaskOutput :=
  outs.filter (fun o => !isArchetypeOutput o)

/-- The outputs the separation loop sends to the archetype list. -/
def archetypeOutputs (outs : List TaskOutput) : List TaskOutput :=
  outs.filter isArchetypeOutput

lemma collectResults_ok_spec : ∀ (outs : List TaskOutput)
    (cs as_ : List ChainResult), collectResults outs = .ok (cs, as_) →
    (cs.length = (chainOutputs outs).length ∧ as_.length = (archetypeOutputs outs).length)
    ∧ (∀ r ∈ cs, 0 ≤ r.confidence ∧ r.confidence ≤ 1)
    ∧ (∀ r ∈ as_, 0 ≤ r.confidence ∧ r.confidence ≤ 1) := by
  intro outs
  induction outs with
  | nil =>
    intro cs as_ h
    simp only [collectResults, Except.ok.injEq, Prod.mk.injEq] at h
    obtain ⟨h1, h2⟩ := h
    subst h1; subst h2
    simp [chainOutputs, archetypeOutputs]
  | cons o os ih =>
    intro cs as_ h
    simp only [collectResults, Bind.bind, Except.bind] at h
    cases hp : parse_task_output o.output (chainIdOf o) with
    | error e => rw [hp] at h; simp at h
    | ok r0 =>
      rw [hp] at h
      cases hc : collectResults os with
      | error e => rw [hc] at h; simp at h
      | ok p =>
        obtain ⟨cs0, as0⟩ := p
        rw [hc] at h
        obtain ⟨⟨hlc, hla⟩, hbc, hba⟩ := ih cs0 as0 hc
        dsimp only at h
        have hr0 : 0 ≤ r0.confidence ∧ r0.confidence ≤ 1 :=
          parse_task_output_ok_bounds hp
        by_cases ha : isArchetypeOutput o = true
        · rw [if_pos ha] at h
          simp only [Except.ok.injEq, Prod.mk.injEq] at h
          obtain ⟨h1, h2⟩ := h
          subst h1; subst h2
          refine ⟨⟨?_, ?_⟩, hbc, ?_⟩
          · simp [chainOutputs, List.filter_cons, ha, hlc]
          · simp [archetypeOutputs, List.filter_cons, ha, hla]
          · intro r hr
            rcases List.mem_cons.mp hr with h1 | h1
            · subst h1; exact hr0
            · exact hba r h1
        · rw [if_neg ha] at h
          simp only [Except.ok.injEq, Prod.mk.injEq] at h
          obtain ⟨h1, h2⟩ := h
          subst h1; subst h2
          refine ⟨⟨?_, ?_⟩, ?_, hba⟩
          · simp [chainOutputs, List.filter_cons, ha, hlc]
          · simp [archetypeOutputs, List.filter_cons, ha, hla]
          · intro r hr
            rcases List.mem_cons.mp hr with h1 | h1
            · subst h1; exact hr0
            · exact hbc r h1

lemma aggregate_from_json_ok_spec {outs : List TaskOutput} {plan : PlanDict}
    {cs as_ : List ChainResult} {res : AggFinal}
    (hc : collectResults outs = .ok (cs, as_))
    (h : aggregate_from_json outs plan = .ok res) :
    res.confidence
      = blendConfidence (aggregatedOutcome cs (resolveComputeType plan.compute_type)).confidence cs as_
    ∧ res.chain_count = cs.length ∧ res.archetype_count = as_.length := by
  unfold aggregate_from_json at h
  rw [hc] at h
  simp only [Bind.bind, Except.bind] at h
  cases h1 : cs.mapM (fun r => (truncResult r.result).map (fun t => (r.chain_id, r.confidence, t))) with
  | error e => rw [h1] at h; simp at h
  | ok cp =>
    rw [h1] at h
    cases h2 : as_.mapM (fun r => (truncResult r.result).map (fun t => (r.chain_id, r.confidence, t))) with
    | error e => rw [h2] at h; simp at h
    | ok ap =>
      rw [h2] at h
      simp only [Except.ok.injEq] at h
      rw [← h]
      exact ⟨rfl, rfl, rfl⟩

lemma blendConfidence_bounds {a : ℚ} {cs as_ : List ChainResult}
    (ha0 : 0 ≤ a) (ha1 : a ≤ 1)
    (hb : ∀ r ∈ as_, 0 ≤ r.confidence ∧ r.confidence ≤ 1) :
    0 ≤ blendConfidence a cs as_ ∧ blendConfidence a cs as_ ≤ 1 := by
  cases as_ with
  | nil => exact ⟨ha0, ha1⟩
  | cons x xs =>
    have hm0 : 0 ≤ sumConf (x :: xs) :=
      sumConf_nonneg (fun r hr => (hb r hr).1)
    have hm1 : sumConf (x :: xs) ≤ ((x :: xs).length : ℚ) :=
      sumConf_le_length (fun r hr => (hb r hr).2)
    have hlp : (0 : ℚ) < ((x :: xs).length : ℚ) := by
      simp only [List.length_cons]; push_cast; positivity
    have hmean0 : 0 ≤ sumConf (x :: xs) / ((x :: xs).length : ℚ) :=
      div_nonneg hm0 (le_of_lt hlp)
    have hmean1 : sumConf (x :: xs) / ((x :: xs).length : ℚ) ≤ 1 :=
      (div_le_one hlp).mpr hm1
    cases cs with
    | nil => exact ⟨hmean0, hmean1⟩
    | cons y ys =>
      constructor
      · simp only [blendConfidence]
        positivity
      · simp only [blendConfidence]
        nlinarith

lemma aggregatedOutcome_bounds {cs : List ChainResult} {ct : ComputeType}
    (hb : ∀ r ∈ cs, 0 ≤ r.confidence ∧ r.confidence ≤ 1) :
    0 ≤ (aggregatedOutcome cs ct).confidence ∧ (aggregatedOutcome cs ct).confidence ≤ 1 := by
  cases cs with
  | nil => simp [aggregatedOutcome]
  | cons r rs =>
    simp only [aggregatedOutcome]
    exact aggregate_results_bounds (r :: rs) ct (by simp) hb

lemma aggregate_results_parallel (r : ChainResult) (rs : List ChainResult) :
    aggregate_results (r :: rs) .PARALLEL = cwaAggregate (r :: rs) := rfl

lemma aggregate_results_hivemind (r : ChainResult) (rs : List ChainResult) :
    aggregate_results (r :: rs) .HIVEMIND = majorityVote r rs := rfl

lemma cwaAggregate_zero {r : ChainResult} {rs : List ChainResult}
    (h : sumConf (r :: rs) = 0) :
    cwaAggregate (r :: rs)
      = { confidence := 0, result := some r.result, status := "zero_confidence" } := by
  simp only [cwaAggregate, if_pos h]

lemma cwaAggregate_nonzero {r : ChainResult} {rs : List ChainResult}
    (h : sumConf (r :: rs) ≠ 0) :
    cwaAggregate (r :: rs)
      = { confidence := sumSqConf (r :: rs) / sumConf (r :: rs)
          result := some (maxByConf r rs).result
          status := "success"
          method := some "confidence_weighted_average" } := by
  simp only [cwaAggregate, if_neg h]

/-! ## Claim theorems -/

/-- C1: on a non-empty result list with nonzero total confidence, the
confidence-weighted-average reduction (parallel/default) returns
Σ(confidence²)/Σ(confidence) with the representative result taken from a
maximal-confidence item; with zero total it returns confidence 0, status
"zero_confidence" and the first item's text; and `[0.8, 0.9]` aggregates to
`(0.64+0.81)/1.7`, not the arithmetic mean `0.85`. -/
theorem C1_confidence_weighted_average (results : List ChainResult) (hne : results ≠ []) :
    (sumConf results ≠ 0 →
      (aggregate_results results .PARALLEL).confidence = sumSqConf results / sumConf results
      ∧ ∃ b ∈ results, (∀ r ∈ results, r.confidence ≤ b.confidence)
          ∧ (aggregate_results results .PARALLEL).result = some b.result)
    ∧ (sumConf results = 0 →
      (aggregate_results results .PARALLEL).confidence = 0
      ∧ (aggregate_results results .PARALLEL).status = "zero_confidence"
      ∧ (aggregate_results results .PARALLEL).result = results.head?.map (fun r => r.result))
    ∧ (aggregate_results [c1a, c1b] .PARALLEL).confidence
        = ((64 : ℚ)/100 + (81 : ℚ)/100) / ((17 : ℚ)/10)
    ∧ ((64 : ℚ)/100 + (81 : ℚ)/100) / ((17 : ℚ)/10) ≠ (85 : ℚ)/100 := by
  match results, hne with
  | r :: rs, _ =>
    refine ⟨?_, ?_, by with_unfolding_all decide, by norm_num⟩
    · intro hnz
      rw [aggregate_results_parallel, cwaAggregate_nonzero hnz]
      refine ⟨rfl, ?_⟩
      obtain ⟨hmem, hle, hall⟩ := maxByConf_spec rs r
      refine ⟨maxByConf r rs, ?_, ?_, rfl⟩
      · rcases hmem with h | h
        · rw [h]; exact List.mem_cons_self _ _
        · exact List.mem_cons_of_mem _ h
      · intro x hx
        rcases List.mem_cons.mp hx with h | h
        · rw [h]; exact hle
        · exact hall x h
    · intro hz
      rw [aggregate_results_parallel, cwaAggregate_zero hz]
      exact ⟨rfl, rfl, rfl⟩

/-- C1 witness: the theorem applied to the concrete two-element list. -/
theorem C1_witness :
    ([c1a, c1b] : List ChainResult) ≠ []
    ∧ sumConf [c1a, c1b] ≠ 0
    ∧ (aggregate_results [c1a, c1b] .PARALLEL).confidence
        = sumSqConf [c1a, c1b] / sumConf [c1a, c1b]
    ∧ sumSqConf [c1a, c1b] / sumConf [c1a, c1b] = (29 : ℚ)/34 := by
  refine ⟨by simp, by with_unfolding_all decide, ?_, by with_unfolding_all decide⟩
  exact ((C1_confidence_weighted_average [c1a, c1b] (by simp)).1 (by with_unfolding_all decide)).1

/-- C2: the chain selector returns exactly the fixed policy table:
PL1={A}, PL2={A,B}, PL3={A,B,D} (skipping C), PL4 = first six declared
chains (A..F), PL5 = all nine (A..I). -/
theorem C2_chain_selector_policy_table :
    get_chains_for_precision 1 = ["A_SINGLE_SOURCE"]
    ∧ get_chains_for_precision 2 = ["A_SINGLE_SOURCE", "B_DUAL_SOURCE"]
    ∧ get_chains_for_precision 3 = ["A_SINGLE_SOURCE", "B_DUAL_SOURCE", "D_ADVERSARIAL"]
    ∧ get_chains_for_precision 4
        = ["A_SINGLE_SOURCE", "B_DUAL_SOURCE", "C_TRIPLE_SOURCE", "D_ADVERSARIAL",
           "E_MATHEMATICAL", "F_DOMAIN_EXPERT"]
    ∧ get_chains_for_precision 4 = CHAIN_PROMPTS_keys.take 6
    ∧ get_chains_for_precision 5 = CHAIN_PROMPTS_keys
    ∧ CHAIN_PROMPTS_keys
        = ["A_SINGLE_SOURCE", "B_DUAL_SOURCE", "C_TRIPLE_SOURCE", "D_ADVERSARIAL",
           "E_MATHEMATICAL", "F_DOMAIN_EXPERT", "G_TEMPORAL", "H_CONSENSUS", "I_STREAMING"] :=
  ⟨rfl, rfl, rfl, rfl, rfl, rfl, rfl⟩

/-- C3 counterexample: the claim says plan creation never raises on an
unrecognized topology string, but `create_execution_plan` converts the
string with the `ComputeType` enum constructor, which raises `ValueError`
for `"quantum"` instead of falling back to parallel. -/
theorem C3_counterexample :
    computeTypeOfString "quantum" = none
    ∧ create_execution_plan "t" "quantum" 3 "autonomous" = .error .valueError :=
  ⟨rfl, rfl⟩

/-- C3 (amended): for every string outside the 13 topology values, plan
creation raises `ValueError` (it does not fall back), while the fail-open
behaviour does hold in the aggregation path: `aggregate_from_json` resolves
such a string to the parallel compute type instead of raising. -/
theorem C3_unknown_topology (task profile s : String) (pl : Int)
    (h : computeTypeOfString s = none) :
    create_execution_plan task s pl profile = .error .valueError
    ∧ resolveComputeType s = ComputeType.PARALLEL := by
  constructor
  · unfold create_execution_plan
    rw [h]
  · unfold resolveComputeType
    rw [h]
    rfl

/-- C3 witness: the amended theorem applied to the string `"quantum"`. -/
theorem C3_witness :
    computeTypeOfString "quantum" = none
    ∧ create_execution_plan "t2" "quantum" 5 "autonomous" = .error .valueError
    ∧ resolveComputeType "quantum" = ComputeType.PARALLEL := by
  have H := C3_unknown_topology "t2" "autonomous" "quantum" 5 rfl
  exact ⟨rfl, H.1, H.2⟩

/-- C4: `create_smart_execution_plan` satisfies
`total_agents = chain items + persona items` by construction, but the
command-line override path (here `--compute critic_loop --precision 3` on
task `"t"`) regenerates `chain_commands` without refreshing `total_agents`:
the emitted plan says 8 agents while holding 2 chain + 5 archetype items. -/
theorem C4_total_agents_violation :
    (∀ (task : String) (pl : Int) (ua : Bool),
      (create_smart_execution_plan task pl ua).total_agents
        = (create_smart_execution_plan task pl ua).chain_commands.length
          + (create_smart_execution_plan task pl ua).archetype_commands.length)
    ∧ (cli_plan_explicit "t" .CRITIC_LOOP 3 false).total_agents = 8
    ∧ (cli_plan_explicit "t" .CRITIC_LOOP 3 false).chain_commands.length = 2
    ∧ (cli_plan_explicit "t" .CRITIC_LOOP 3 false).archetype_commands.length = 5
    ∧ (cli_plan_explicit "t" .CRITIC_LOOP 3 false).total_agents
        ≠ (cli_plan_explicit "t" .CRITIC_LOOP 3 false).chain_commands.length
          + (cli_plan_explicit "t" .CRITIC_LOOP 3 false).archetype_commands.length := by
  refine ⟨fun task pl ua => rfl, rfl, rfl, rfl, ?_⟩
  intro hcon
  rw [show (cli_plan_explicit "t" .CRITIC_LOOP 3 false).total_agents = 8 from rfl,
      show (cli_plan_explicit "t" .CRITIC_LOOP 3 false).chain_commands.length = 2 from rfl,
      show (cli_plan_explicit "t" .CRITIC_LOOP 3 false).archetype_commands.length = 5 from rfl] at hcon
  exact absurd hcon (by decide)

/-- C5: the smart plan itself always carries the parallel compute type with
mode "parallel", but the command-line override path (here
`--compute sequential --precision 3` on task `"t"`) replaces `compute_type`
without refreshing `execution_mode`: the emitted plan declares topology
"sequential" with mode "parallel", violating the claimed equivalence. -/
theorem C5_execution_mode_violation :
    (∀ (task : String) (pl : Int) (ua : Bool),
      (create_smart_execution_plan task pl ua).compute_type = "parallel"
      ∧ (create_smart_execution_plan task pl ua).execution_mode = "parallel")
    ∧ (cli_plan_explicit "t" .SEQUENTIAL 3 false).compute_type = "sequential"
    ∧ (cli_plan_explicit "t" .SEQUENTIAL 3 false).execution_mode = "parallel"
    ∧ ("sequential" ≠ "parallel" ∧ "sequential" ≠ "swarm" ∧ "sequential" ≠ "hivemind") := by
  exact ⟨fun task pl ua => ⟨rfl, rfl⟩, rfl, rfl, by decide⟩

/-- C6: the hivemind majority vote falls back to confidence-weighted
averaging below 3 results; with 3 or more, if the count of results with
confidence ≥ 0.6 reaches 0.6 of the total it returns status "consensus",
the mean of that high subset and the result of its highest-confidence
member; otherwise status "no_consensus", confidence 0.5 and the first
item's text. -/
theorem C6_majority_vote (results : List ChainResult) :
    (results.length < 3 →
      aggregate_results results .HIVEMIND = aggregate_results results .PARALLEL)
    ∧ (3 ≤ results.length →
      (((results.length : ℚ) * ((3 : ℚ)/5) ≤ ((highConf results).length : ℚ) →
        (aggregate_results results .HIVEMIND).status = "consensus"
        ∧ (aggregate_results results .HIVEMIND).confidence
            = sumConf (highConf results) / ((highConf results).length : ℚ)
        ∧ ∃ b ∈ highConf results,
            (∀ r ∈ highConf results, r.confidence ≤ b.confidence)
            ∧ (aggregate_results results .HIVEMIND).result = some b.result)
      ∧ (((highConf results).length : ℚ) < (results.length : ℚ) * ((3 : ℚ)/5) →
        (aggregate_results results .HIVEMIND).status = "no_consensus"
        ∧ (aggregate_results results .HIVEMIND).confidence = (1 : ℚ)/2
        ∧ (aggregate_results results .HIVEMIND).result
            = results.head?.map (fun r => r.result)))) := by
  cases results with
  | nil => exact ⟨fun _ => rfl, fun h3 => absurd h3 (by simp)⟩
  | cons r rs =>
    constructor
    · intro hlt
      rw [aggregate_results_hivemind, aggregate_results_parallel]
      simp only [majorityVote, if_pos hlt]
    · intro h3
      have hnlt : ¬ (r :: rs).length < 3 := Nat.not_lt.mpr h3
      constructor
      · intro hth
        rw [aggregate_results_hivemind]
        simp only [majorityVote, if_neg hnlt, if_pos hth]
        cases hhc : highConf (r :: rs) with
        | nil =>
          exfalso
          rw [hhc] at hth
          have hcast : (3 : ℚ) ≤ ((r :: rs).length : ℚ) := by exact_mod_cast h3
          simp only [List.length_nil, Nat.cast_zero] at hth
          nlinarith
        | cons h t =>
          refine ⟨rfl, rfl, ?_⟩
          obtain ⟨hmem, hle, hall⟩ := maxByConf_spec t h
          refine ⟨maxByConf h t, ?_, ?_, rfl⟩
          · rcases hmem with hm | hm
            · rw [hm]; exact List.mem_cons_self _ _
            · exact List.mem_cons_of_mem _ hm
          · intro x hx
            rcases List.mem_cons.mp hx with hm | hm
            · rw [hm]; exact hle
            · exact hall x hm
      · intro hlt
        rw [aggregate_results_hivemind]
        simp only [majorityVote, if_neg hnlt, if_neg (not_le.mpr hlt)]
        exact ⟨trivial, trivial, rfl⟩

/-- C6 witness: three results with confidences 0.7, 0.8, 0.2: the two high
ones meet the 0.6 quorum, so the vote reaches consensus with their mean. -/
theorem C6_witness :
    3 ≤ ([c6r1, c6r2, c6r3] : List ChainResult).length
    ∧ (([c6r1, c6r2, c6r3] : List ChainResult).length : ℚ) * ((3 : ℚ)/5)
        ≤ ((highConf [c6r1, c6r2, c6r3]).length : ℚ)
    ∧ (aggregate_results [c6r1, c6r2, c6r3] .HIVEMIND).status = "consensus"
    ∧ (aggregate_results [c6r1, c6r2, c6r3] .HIVEMIND).confidence
        = sumConf (highConf [c6r1, c6r2, c6r3]) / ((highConf [c6r1, c6r2, c6r3]).length : ℚ)
    ∧ sumConf (highConf [c6r1, c6r2, c6r3]) / ((highConf [c6r1, c6r2, c6r3]).length : ℚ)
        = (3 : ℚ)/4 := by
  have hth : (([c6r1, c6r2, c6r3] : List ChainResult).length : ℚ) * ((3 : ℚ)/5)
      ≤ ((highConf [c6r1, c6r2, c6r3]).length : ℚ) := by with_unfolding_all decide
  have H := ((C6_majority_vote [c6r1, c6r2, c6r3]).2 (by simp)).1 hth
  exact ⟨by simp, hth, H.1, H.2.1, by with_unfolding_all decide⟩

/-- C7 counterexample: the claim partitions by the source label alone, so
for `c7badOutputs` it predicts one chain result (label "Chain-A verify"),
one persona result, and the blend 0.6·0.8 + 0.4·0.5 = 0.68.  The code also
scans the raw output text for "ARC-", classifies the first output as a
persona result too, and returns the persona mean 0.65 with zero chain
results. -/
theorem C7_counterexample :
    (aggregate_from_json c7badOutputs {}).map
        (fun res => (res.confidence, res.chain_count, res.archetype_count))
      = .ok ((13 : ℚ)/20, 0, 2)
    ∧ (13 : ℚ)/20 ≠ (3 : ℚ)/5 * ((4 : ℚ)/5) + (2 : ℚ)/5 * ((1 : ℚ)/2) :=
  ⟨by with_unfolding_all rfl, by norm_num⟩

/-- C7 (amended): the partition inspects the source label **and the raw
output text** for an archetype marker (`isArchetypeOutput`); with that
partition, when both categories are non-empty the verdict confidence is
0.6 × topology-reduced chain confidence + 0.4 × persona mean, and with no
chain results it is the persona mean — for runs on which the parser
returns (no uncaught parser exception, cf. C9). -/
theorem C7_partition_and_blend (outs : List TaskOutput) (plan : PlanDict)
    (cs as_ : List ChainResult)
    (hc : collectResults outs = .ok (cs, as_))
    (hok : (aggregate_from_json outs plan).isOk = true) :
    (aggregate_from_json outs plan).map (fun res => (res.chain_count, res.archetype_count))
        = .ok ((chainOutputs outs).length, (archetypeOutputs outs).length)
    ∧ (cs ≠ [] → as_ ≠ [] →
        (aggregate_from_json outs plan).map (fun res => res.confidence)
          = .ok ((aggregate_results cs (resolveComputeType plan.compute_type)).confidence * ((3 : ℚ)/5)
              + (sumConf as_ / (as_.length : ℚ)) * ((2 : ℚ)/5)))
    ∧ (cs = [] → as_ ≠ [] →
        (aggregate_from_json outs plan).map (fun res => res.confidence)
          = .ok (sumConf as_ / (as_.length : ℚ))) := by
  cases hres : aggregate_from_json outs plan with
  | error e => rw [hres] at hok; simp [Except.isOk, Except.toBool] at hok
  | ok res =>
    obtain ⟨hconf, hcc, hac⟩ := aggregate_from_json_ok_spec hc hres
    obtain ⟨⟨hlc, hla⟩, _, _⟩ := collectResults_ok_spec outs cs as_ hc
    refine ⟨?_, ?_, ?_⟩
    · simp only [Except.map]
      rw [hcc, hac, hlc, hla]
    · intro hcne hane
      obtain ⟨c, cs2, rfl⟩ : ∃ c cs2, cs = c :: cs2 := by
        cases cs with
        | nil => exact absurd rfl hcne
        | cons c cs2 => exact ⟨c, cs2, rfl⟩
      obtain ⟨a, as2, rfl⟩ : ∃ a as2, as_ = a :: as2 := by
        cases as_ with
        | nil => exact absurd rfl hane
        | cons a as2 => exact ⟨a, as2, rfl⟩
      simp only [Except.map]
      rw [hconf]
      simp only [blendConfidence, aggregatedOutcome]
    · intro hce hane
      subst hce
      obtain ⟨a, as2, rfl⟩ : ∃ a as2, as_ = a :: as2 := by
        cases as_ with
        | nil => exact absurd rfl hane
        | cons a as2 => exact ⟨a, as2, rfl⟩
      simp only [Except.map]
      rw [hconf]
      simp only [blendConfidence, aggregatedOutcome]

/-- C7 witness: one genuine chain output (0.8) and one persona output
(0.5) blend to 0.6·0.8 + 0.4·0.5 = 0.68. -/
theorem C7_witness :
    collectResults c7goodOutputs = .ok ([c7r1], [c7r2])
    ∧ (aggregate_from_json c7goodOutputs ({} : PlanDict)).isOk = true
    ∧ (aggregate_from_json c7goodOutputs ({} : PlanDict)).map (fun res => res.confidence)
        = .ok ((aggregate_results [c7r1] (resolveComputeType ({} : PlanDict).compute_type)).confidence * ((3 : ℚ)/5)
            + (sumConf [c7r2] / (([c7r2] : List ChainResult).length : ℚ)) * ((2 : ℚ)/5))
    ∧ (aggregate_from_json c7goodOutputs ({} : PlanDict)).map (fun res => res.confidence)
        = .ok ((17 : ℚ)/25) := by
  have h1 : collectResults c7goodOutputs = .ok ([c7r1], [c7r2]) := by with_unfolding_all rfl
  have h2 : (aggregate_from_json c7goodOutputs ({} : PlanDict)).isOk = true := by
    with_unfolding_all rfl
  have H := C7_partition_and_blend c7goodOutputs {} [c7r1] [c7r2] h1 h2
  have H3 := H.2.1 (by simp) (by simp)
  refine ⟨h1, h2, H3, ?_⟩
  rw [H3]
  congr 1
  with_unfolding_all decide

/-- C8 counterexample: the claim promises that any confidence label found
in the raw text yields the (clamped, percentage-normalized) final
confidence.  But (i) a fenced block decoding to a JSON array makes the
parser raise before the label scan is reached, so "confidence: 95" in
`c8raw` never yields 0.95; and (ii) only the **first** regex match is
tried: in "confidence: 1.2.3 confidence: 0.7" the first token "1.2.3"
fails `float`, so the later label 0.7 never overrides and the default 0.5
survives. -/
theorem C8_counterexample :
    parse_task_output c8raw "unknown" = .error .attributeError
    ∧ (parse_task_output c8raw "unknown").map (fun r => r.confidence) ≠ .ok ((19 : ℚ)/20)
    ∧ (parse_task_output "confidence: 1.2.3 confidence: 0.7" "u").map (fun r => r.confidence)
        = .ok ((1 : ℚ)/2)
    ∧ (1 : ℚ)/2 ≠ (7 : ℚ)/10 := by
  have h : parse_task_output c8raw "unknown" = .error .attributeError := rfl
  refine ⟨h, ?_, by with_unfolding_all rfl, by norm_num⟩
  rw [h]
  simp [Except.map]

/-- C8 (amended): whenever the parser returns (the fenced block does not
raise through the uncaught-exception gap of C9), a confidence label found
by the case-insensitive scan overrides the block-derived confidence with
its first matched numeric token — divided by 100 when above 1 — and the
final confidence is clamped to [0, 1]. -/
theorem C8_confidence_override (raw cid : String) (r : ChainResult) (tok : List Char) (v : ℚ)
    (hok : parse_task_output raw cid = .ok r)
    (hscan : scanConfToken (pyLower raw).data = some tok)
    (hv : pyFloatOfToken? tok = some v) :
    r.confidence = pyClamp (if v > 1 then v / 100 else v)
    ∧ 0 ≤ r.confidence ∧ r.confidence ≤ 1 := by
  have hb := parse_task_output_ok_bounds hok
  refine ⟨?_, hb⟩
  unfold parse_task_output at hok
  cases hbs : parse_block_step raw with
  | error e => rw [hbs] at hok; simp [Bind.bind, Except.bind] at hok
  | ok p =>
    obtain ⟨conf1, res1⟩ := p
    rw [hbs] at hok
    simp only [Bind.bind, Except.bind, Except.ok.injEq] at hok
    rw [← hok]
    simp only [applyConfOverride, hscan, hv]

/-- C8 witness: "confidence: 95" overrides a block confidence of 0.2 and is
percentage-normalized to 0.95. -/
theorem C8_witness :
    parse_task_output c8wraw "u" = .ok c8wres
    ∧ scanConfToken (pyLower c8wraw).data = some ['9', '5']
    ∧ pyFloatOfToken? ['9', '5'] = some 95
    ∧ c8wres.confidence = pyClamp (if (95 : ℚ) > 1 then (95 : ℚ) / 100 else 95)
    ∧ 0 ≤ c8wres.confidence ∧ c8wres.confidence ≤ 1 := by
  have h1 : parse_task_output c8wraw "u" = .ok c8wres := by with_unfolding_all rfl
  refine ⟨h1, rfl, rfl, ?_⟩
  exact C8_confidence_override c8wraw "u" c8wres ['9', '5'] 95 h1 rfl rfl

/-- C9: the parser is claimed never to raise, but the `except` clause only
catches `json.JSONDecodeError` and `ValueError`: a fenced block holding a
JSON array raises `AttributeError` at `data.get`, and a null `confidence`
field raises `TypeError` at `float(None)`. -/
theorem C9_parser_uncaught_exceptions :
    parse_task_output "```json\n[1, 2]\n```" "unknown" = .error .attributeError
    ∧ parse_task_output "```json\n\x7b\"confidence\": null\x7d\n```" "unknown"
        = .error .typeError :=
  ⟨rfl, rfl⟩

/-- C10: with all input confidences in [0, 1], every reduction branch of
`aggregate_results` stays in [0, 1]; the confidence-weighted average never
exceeds any upper bound of the inputs (hence not their maximum); and every
successful `aggregate_from_json` verdict — blending included — stays in
[0, 1]. -/
theorem C10_confidence_unit_interval :
    (∀ (results : List ChainResult) (ct : ComputeType), results ≠ [] →
      (∀ r ∈ results, 0 ≤ r.confidence ∧ r.confidence ≤ 1) →
      0 ≤ (aggregate_results results ct).confidence
      ∧ (aggregate_results results ct).confidence ≤ 1)
    ∧ (∀ (results : List ChainResult) (m : ℚ), results ≠ [] →
      (∀ r ∈ results, 0 ≤ r.confidence ∧ r.confidence ≤ m) →
      (aggregate_results results .PARALLEL).confidence ≤ m)
    ∧ (∀ (outs : List TaskOutput) (plan : PlanDict) (res : AggFinal),
      aggregate_from_json outs plan = .ok res →
      0 ≤ res.confidence ∧ res.confidence ≤ 1) := by
  refine ⟨aggregate_results_bounds, ?_, ?_⟩
  · intro results m hne hb
    match results, hne with
    | r :: rs, _ =>
      rw [aggregate_results_parallel]
      exact (cwaAggregate_le r rs m (fun x hx => (hb x hx).1) (fun x hx => (hb x hx).2)).2
  · intro outs plan res h
    cases hcol : collectResults outs with
    | error e =>
      exfalso
      unfold aggregate_from_json at h
      rw [hcol] at h
      simp [Bind.bind, Except.bind] at h
    | ok p =>
      obtain ⟨cs, as_⟩ := p
      obtain ⟨hconf, _, _⟩ := aggregate_from_json_ok_spec hcol h
      obtain ⟨_, hbc, hba⟩ := collectResults_ok_spec outs cs as_ hcol
      rw [hconf]
      have hag := @aggregatedOutcome_bounds cs (resolveComputeType plan.compute_type) hbc
      exact blendConfidence_bounds hag.1 hag.2 hba

/-- C10 witness: the three parts applied to a singleton list with
confidence 0.9 and to a one-output aggregation run. -/
theorem C10_witness :
    ([c10r] : List ChainResult) ≠ []
    ∧ (∀ r ∈ ([c10r] : List ChainResult), 0 ≤ r.confidence ∧ r.confidence ≤ 1)
    ∧ (0 ≤ (aggregate_results [c10r] .SWARM).confidence
        ∧ (aggregate_results [c10r] .SWARM).confidence ≤ 1)
    ∧ (aggregate_results [c10r] .PARALLEL).confidence ≤ (9 : ℚ)/10
    ∧ (aggregate_from_json c10outs ({} : PlanDict)).toOption.map
        (fun res => decide (0 ≤ res.confidence ∧ res.confidence ≤ 1)) = some true := by
  have hb : ∀ r ∈ ([c10r] : List ChainResult), 0 ≤ r.confidence ∧ r.confidence ≤ 1 := by
    intro r hr
    simp only [List.mem_singleton] at hr
    subst hr
    exact ⟨by norm_num [c10r], by norm_num [c10r]⟩
  have hb2 : ∀ r ∈ ([c10r] : List ChainResult), 0 ≤ r.confidence ∧ r.confidence ≤ (9 : ℚ)/10 := by
    intro r hr
    simp only [List.mem_singleton] at hr
    subst hr
    exact ⟨by norm_num [c10r], by norm_num [c10r]⟩
  refine ⟨by simp, hb,
    C10_confidence_unit_interval.1 [c10r] .SWARM (by simp) hb,
    C10_confidence_unit_interval.2.1 [c10r] ((9 : ℚ)/10) (by simp) hb2, ?_⟩
  cases hres : aggregate_from_json c10outs ({} : PlanDict) with
  | error e =>
    exfalso
    have hok : (aggregate_from_json c10outs ({} : PlanDict)).isOk = true := by
      with_unfolding_all rfl
    rw [hres] at hok
    simp [Except.isOk, Except.toBool] at hok
  | ok res =>
    have hbb := C10_confidence_unit_interval.2.2 c10outs {} res hres
    simp [Except.toOption, hbb.1, hbb.2]

end USF2
